import Mathlib

/-!
Verification development for the AzureAutomation repository
(`PythonAutoStartStop.py`), a Python Azure Automation runbook stub.

The development has two layers:

1. A syntactic embedding of the Python source file itself (abstract
   statement/expression trees transcribed from `PythonAutoStartStop.py`),
   together with Python's rule that every `def`/`for`/`if` suite must
   contain at least one statement (comments are not statements, in both
   Python 2 and Python 3), and the consequence for module loading.

2. Executable models of the schedule-driven power-management design the
   specification reconstructs (parser, evaluator, planner, executor, run
   orchestration).  These components are absent from the source — they
   exist there only as bodiless function stubs and block comments — so
   each such definition is explicitly marked `Modelled from the spec:`.
-/

set_option autoImplicit false

namespace AAS

/-! ### Layer 1: syntactic embedding of `PythonAutoStartStop.py` -/

/-- Python expressions as they occur in the source file.  Calls are encoded
with explicit arity (the file only contains calls of arity 0 to 4), which
keeps all recursion structural. -/
inductive PyExpr where
  | pname (s : String)
  | strLit (s : String)
  | attr (e : PyExpr) (fld : String)
  | subscr (e : PyExpr) (key : PyExpr)
  | call0 (fn : PyExpr)
  | call1 (fn : PyExpr) (a : PyExpr)
  | call2 (fn : PyExpr) (a b : PyExpr)
  | call3 (fn : PyExpr) (a b c : PyExpr)
  | call4 (fn : PyExpr) (a b c d : PyExpr)
  | lam0 (body : PyExpr)
  | strConcat (a b : PyExpr)
  | kw (k : String) (v : PyExpr)
  deriving DecidableEq, Repr

/-- Simple (non-compound) Python statements of the source file.  Comments
are not statements and therefore do not appear in the tree. -/
inductive SimpleStmt where
  | impMod (m : String)
  | impFrom (m n : String)
  | assignS (lhs : String) (rhs : PyExpr)
  | exprS (e : PyExpr)
  | retS (e : PyExpr)
  | printS (e : PyExpr)
  deriving DecidableEq, Repr

/-- Top-level Python statements: simple statements, `def` (with its suite),
`for` loops and `if` blocks.  In this file the bodies of compound
statements contain only simple statements. -/
inductive TopStmt where
  | simple (s : SimpleStmt)
  | defS (fname : String) (params : List String) (body : List SimpleStmt)
  | forS (v : String) (iter : PyExpr) (body : List SimpleStmt)
  | ifS (cond : PyExpr) (body : List SimpleStmt)
  deriving DecidableEq, Repr

/-- The name in call position of an expression: a bare name, or the final
attribute of an attribute chain. -/
def headNameOf : PyExpr → String
  | .pname s => s
  | .attr _ f => f
  | _ => ("")

/-- All names that occur in call position anywhere inside an expression. -/
def exprCallees : PyExpr → List String
  | .pname _ => []
  | .strLit _ => []
  | .attr e _ => exprCallees e
  | .subscr e k => exprCallees e ++ exprCallees k
  | .call0 f => headNameOf f :: exprCallees f
  | .call1 f a => headNameOf f :: (exprCallees f ++ exprCallees a)
  | .call2 f a b => headNameOf f :: (exprCallees f ++ exprCallees a ++ exprCallees b)
  | .call3 f a b c =>
      headNameOf f :: (exprCallees f ++ exprCallees a ++ exprCallees b ++ exprCallees c)
  | .call4 f a b c d =>
      headNameOf f ::
        (exprCallees f ++ exprCallees a ++ exprCallees b ++ exprCallees c ++ exprCallees d)
  | .lam0 b => exprCallees b
  | .strConcat a b => exprCallees a ++ exprCallees b
  | .kw _ v => exprCallees v

/-- Names in call position inside a simple statement. -/
def stmtCallees : SimpleStmt → List String
  | .impMod _ => []
  | .impFrom _ _ => []
  | .assignS _ e => exprCallees e
  | .exprS e => exprCallees e
  | .retS e => exprCallees e
  | .printS e => exprCallees e

/-- Names in call position inside a top-level statement (including the
bodies of `def`, `for` and `if`). -/
def topCallees : TopStmt → List String
  | .simple s => stmtCallees s
  | .defS _ _ body => body.foldr (fun s acc => stmtCallees s ++ acc) []
  | .forS _ it body => exprCallees it ++ body.foldr (fun s acc => stmtCallees s ++ acc) []
  | .ifS c body => exprCallees c ++ body.foldr (fun s acc => stmtCallees s ++ acc) []

/-- Names in call position anywhere in a module. -/
def moduleCallees (m : List TopStmt) : List String :=
  m.foldr (fun t acc => topCallees t ++ acc) []

/-- Python requires the suite of a `def`/`for`/`if` to contain at least one
statement (a comment is not a statement) — in Python 2 and Python 3 alike. -/
def topOk : TopStmt → Bool
  | .simple _ => true
  | .defS _ _ body => !body.isEmpty
  | .forS _ _ body => !body.isEmpty
  | .ifS _ body => !body.isEmpty

/-- A module compiles (and can therefore be loaded) only if every compound
statement has a non-empty suite. -/
def moduleLoads (m : List TopStmt) : Bool :=
  m.all topOk

/-- Python compiles a whole module before running any of it, so on a
compile-time (syntax) error no top-level statement executes at all. -/
def executedTopLevel (m : List TopStmt) : List TopStmt :=
  if moduleLoads m then m else []

/-- Names of `def` statements whose suite is empty (i.e. contained only
comments in the concrete syntax). -/
def emptyDefNames (m : List TopStmt) : List String :=
  m.foldr
    (fun t acc =>
      match t with
      | .defS n _ [] => n :: acc
      | _ => acc)
    []

/-- Whether the module has any top-level `if` statement (in particular, an
entry-point guard such as a main-check would be one). -/
def hasTopLevelIf (m : List TopStmt) : Bool :=
  m.any (fun t => match t with | .ifS _ _ => true | _ => false)

/-- Transcription of `def get_automation_runas_credential(...)` (source
lines 13–38): certificate retrieval, key extraction, connection-field
lookups, and the returned `AdalAuthentication` wrapping a zero-argument
lambda over `acquire_token_with_client_certificate`. -/
def runasCredDef : TopStmt :=
  .defS ("get_automation_runas_credential")
    [("runas_connection"), ("resource_url"), ("authority_url")]
    [ .impFrom ("OpenSSL") ("crypto"),
      .impFrom ("msrestazure") ("azure_active_directory"),
      .impMod ("adal"),
      .assignS ("cert")
        (.call1 (.attr (.pname ("automationassets")) ("get_automation_certificate"))
          (.strLit ("AzureRunAsCertificate"))),
      .assignS ("pks12_cert")
        (.call1 (.attr (.pname ("crypto")) ("load_pkcs12")) (.pname ("cert"))),
      .assignS ("pem_pkey")
        (.call2 (.attr (.pname ("crypto")) ("dump_privatekey"))
          (.attr (.pname ("crypto")) ("FILETYPE_PEM"))
          (.call0 (.attr (.pname ("pks12_cert")) ("get_privatekey")))),
      .assignS ("application_id")
        (.subscr (.pname ("runas_connection")) (.strLit ("ApplicationId"))),
      .assignS ("thumbprint")
        (.subscr (.pname ("runas_connection")) (.strLit ("CertificateThumbprint"))),
      .assignS ("tenant_id")
        (.subscr (.pname ("runas_connection")) (.strLit ("TenantId"))),
      .assignS ("authority_full_url")
        (.strConcat (.strConcat (.pname ("authority_url")) (.strLit ("/")))
          (.pname ("tenant_id"))),
      .assignS ("context")
        (.call1 (.attr (.pname ("adal")) ("AuthenticationContext"))
          (.pname ("authority_full_url"))),
      .retS
        (.call1 (.attr (.pname ("azure_active_directory")) ("AdalAuthentication"))
          (.lam0
            (.call4 (.attr (.pname ("context")) ("acquire_token_with_client_certificate"))
              (.pname ("resource_url")) (.pname ("application_id"))
              (.pname ("pem_pkey")) (.pname ("thumbprint"))))) ]

/-- `def get_current_date():` (source lines 40–41) — the suite holds only a
comment, hence is empty. -/
def getCurrentDateDef : TopStmt :=
  .defS ("get_current_date") [] []

/-- `def test_schedule_entry():` (source lines 43–44) — empty suite. -/
def testScheduleEntryDef : TopStmt :=
  .defS ("test_schedule_entry") [] []

/-- `def assert_resource_power_state():` (source lines 46–47) — empty
suite. -/
def assertResourcePowerStateDef : TopStmt :=
  .defS ("assert_resource_power_state") [] []

/-- Source line 50: `runas_connection = automationassets.get_automation_connection(...)`. -/
def runasConnectionStmt : TopStmt :=
  .simple (.assignS ("runas_connection")
    (.call1 (.attr (.pname ("automationassets")) ("get_automation_connection"))
      (.strLit ("AzureRunAsConnection"))))

/-- Source line 51: `resource_url = AZURE_PUBLIC_CLOUD.endpoints.active_directory_resource_id`. -/
def resourceUrlStmt : TopStmt :=
  .simple (.assignS ("resource_url")
    (.attr (.attr (.pname ("AZURE_PUBLIC_CLOUD")) ("endpoints")) ("active_directory_resource_id")))

/-- Source line 52: `authority_url = AZURE_PUBLIC_CLOUD.endpoints.active_directory`. -/
def authorityUrlStmt : TopStmt :=
  .simple (.assignS ("authority_url")
    (.attr (.attr (.pname ("AZURE_PUBLIC_CLOUD")) ("endpoints")) ("active_directory")))

/-- Source line 53: `resourceManager_url = AZURE_PUBLIC_CLOUD.endpoints.resource_manager`. -/
def resourceManagerUrlStmt : TopStmt :=
  .simple (.assignS ("resourceManager_url")
    (.attr (.attr (.pname ("AZURE_PUBLIC_CLOUD")) ("endpoints")) ("resource_manager")))

/-- Source line 54: the credential-acquisition call
`azure_credential = get_automation_runas_credential(...)`. -/
def azureCredentialStmt : TopStmt :=
  .simple (.assignS ("azure_credential")
    (.call3 (.pname ("get_automation_runas_credential"))
      (.pname ("runas_connection")) (.pname ("resource_url")) (.pname ("authority_url"))))

/-- Source lines 57–60: construction of the `ResourceManagementClient`. -/
def resourceClientStmt : TopStmt :=
  .simple (.assignS ("resource_client")
    (.call3 (.attr (.attr (.attr (.pname ("azure")) ("mgmt")) ("resource"))
        ("ResourceManagementClient"))
      (.pname ("azure_credential"))
      (.call1 (.pname ("str")) (.subscr (.pname ("runas_connection")) (.strLit ("SubscriptionId"))))
      (.kw ("base_url") (.pname ("resourceManager_url")))))

/-- Source line 63: the resource-group listing call
`groups = resource_client.resource_groups.list()`. -/
def groupsListingStmt : TopStmt :=
  .simple (.assignS ("groups")
    (.call0 (.attr (.attr (.pname ("resource_client")) ("resource_groups")) ("list"))))

/-- Source lines 64–65: `for group in groups: print group.name.encode('utf-8')`
(a Python 2 `print` statement). -/
def printGroupsStmt : TopStmt :=
  .forS ("group") (.pname ("groups"))
    [ .printS (.call1 (.attr (.attr (.pname ("group")) ("name")) ("encode")) (.strLit ("utf-8"))) ]

/-- The whole module `PythonAutoStartStop.py`, statement by statement, in
source order (the docstring and all comment lines are not statements). -/
def pyModule : List TopStmt :=
  [ .simple (.impMod ("azure.mgmt.resource")),
    .simple (.impMod ("automationassets")),
    .simple (.impFrom ("msrestazure.azure_cloud") ("AZURE_PUBLIC_CLOUD")),
    runasCredDef,
    getCurrentDateDef,
    testScheduleEntryDef,
    assertResourcePowerStateDef,
    runasConnectionStmt,
    resourceUrlStmt,
    authorityUrlStmt,
    resourceManagerUrlStmt,
    azureCredentialStmt,
    resourceClientStmt,
    groupsListingStmt,
    printGroupsStmt ]

/-! ### Credential acquisition (`get_automation_runas_credential`) -/

/-- Result of invoking the deferred token acquisition. -/
inductive TokenResult where
  | token (s : String)
  | authFailed (msg : String)
  deriving DecidableEq, Repr

/-- The external collaborators used by `get_automation_runas_credential`:
the automation certificate store, the OpenSSL operations, and adal's
`acquire_token_with_client_certificate` (taking authority, resource,
application id, PEM key, thumbprint). -/
structure CertEnv where
  get_automation_certificate : String → String
  load_pkcs12 : String → String
  get_privatekey : String → String
  dump_privatekey : String → String
  acquire_token_with_client_certificate : String → String → String → String → String → TokenResult

/-- Model of `msrestazure`'s `AdalAuthentication`: it stores the
zero-argument token closure it is constructed with. -/
structure AdalAuthentication where
  tokenThunk : Unit → TokenResult

/-- Dictionary lookup `conn[key]` over the run-as connection mapping
(`Option.none` models Python's `KeyError`). -/
def lookupKey (conn : List (String × String)) (k : String) : Option String :=
  (conn.find? (fun p => p.1 == k)).map (fun p => p.2)

/-- Embedding of `get_automation_runas_credential` (source lines 13–38):
load the run-as certificate and extract its private key, read the three
connection fields, build the authority URL, and return an
`AdalAuthentication` wrapping a zero-argument closure over
`acquire_token_with_client_certificate` — without invoking it. -/
def get_automation_runas_credential (env : CertEnv) (runas_connection : List (String × String))
    (resource_url authority_url : String) : Option AdalAuthentication :=
  let cert := env.get_automation_certificate ("AzureRunAsCertificate")
  let pks12_cert := env.load_pkcs12 cert
  let pem_pkey := env.dump_privatekey (env.get_privatekey pks12_cert)
  match lookupKey runas_connection ("ApplicationId"),
        lookupKey runas_connection ("CertificateThumbprint"),
        lookupKey runas_connection ("TenantId") with
  | some application_id, some thumbprint, some tenant_id =>
      let authority_full_url := authority_url ++ ("/") ++ tenant_id
      some ⟨fun _ =>
        env.acquire_token_with_client_certificate authority_full_url resource_url
          application_id pem_pkey thumbprint⟩
  | _, _, _ => Option.none

/-- The PEM private key computed by the function body, as a function of the
environment. -/
def pemOf (env : CertEnv) : String :=
  env.dump_privatekey (env.get_privatekey (env.load_pkcs12
    (env.get_automation_certificate ("AzureRunAsCertificate"))))

/-! ### Schedule data model and evaluator

Modelled from the spec: `test_schedule_entry` (source lines 43–44) has no
body; sections 3 and 4.2 of the specification describe the `Schedule` data
model and the Schedule Evaluator, which are embedded here. -/

/-- Whether an interval represents power-on or power-off. -/
inductive IntervalKind where
  | on
  | off
  deriving DecidableEq, Repr

/-- One (start-time-of-day, stop-time-of-day) interval of a schedule, in
minutes of the day, marked as power-on or power-off. -/
structure SchedInterval where
  start : Nat
  stop : Nat
  kind : IntervalKind
  deriving DecidableEq, Repr

/-- Modelled from the spec: a parsed schedule — time-zone identifier plus
the ordered intervals (spec section 3). -/
structure Schedule where
  tz : String
  intervals : List SchedInterval
  deriving DecidableEq, Repr

/-- The desired action decided by the evaluator. -/
inductive Target where
  | start
  | stop
  | none
  deriving DecidableEq, Repr

/-- A power-on interval yields `start`, a power-off interval yields `stop`. -/
def targetOfKind : IntervalKind → Target
  | .on => .start
  | .off => .stop

/-- `start < i.stop` holds for every valid interval. -/
def intervalOkB (i : SchedInterval) : Bool :=
  decide (i.start < i.stop)

/-- Two intervals are disjoint when one ends before the other begins. -/
def disjointB (a b : SchedInterval) : Bool :=
  decide (a.stop ≤ b.start) || decide (b.stop ≤ a.start)

/-- Pairwise disjointness of a list of intervals. -/
def pairwiseDisjointB : List SchedInterval → Bool
  | [] => true
  | x :: xs => xs.all (disjointB x) && pairwiseDisjointB xs

/-- The `Schedule` invariant of spec section 3: `start < stop` within each
interval, and no two intervals overlap. -/
def wfIntervalsB (l : List SchedInterval) : Bool :=
  l.all intervalOkB && pairwiseDisjointB l

/-- The invariant lifted to a schedule. -/
def wfScheduleB (s : Schedule) : Bool :=
  wfIntervalsB s.intervals

/-- Membership of an instant in an interval (half-open, so every instant
strictly inside is a member and every instant strictly outside is not). -/
def insideB (now : Nat) (i : SchedInterval) : Bool :=
  decide (i.start ≤ now) && decide (now < i.stop)

/-- Modelled from the spec: the Schedule Evaluator (spec section 4.2) —
`start` inside a power-on interval, `stop` inside a power-off interval,
`none` outside all intervals. -/
def evalSchedule (s : Schedule) (now : Nat) : Target :=
  match s.intervals.find? (insideB now) with
  | some i => targetOfKind i.kind
  | Option.none => .none

/-- Modelled from the spec: the evaluator's level tie-break (spec section
4.2) — a resource-level schedule wins entirely over a resource-group-level
schedule; with neither present the default policy yields no action. -/
def evalResource (resSched grpSched : Option Schedule) (now : Nat) : Target :=
  match resSched with
  | some s => evalSchedule s now
  | Option.none =>
    match grpSched with
    | some g => evalSchedule g now
    | Option.none => .none

/-! ### Schedule Parser

Modelled from the spec: the Schedule Parser (spec section 4.1) does not
exist in the source (the spec leaves the exact tag grammar open); the
grammar here is semicolon-separated `on=HH:MM-HH:MM` / `off=HH:MM-HH:MM`
entries with an optional `TimeZone=...|` prefix, and parse-time validation
of the `Schedule` invariant. -/

/-- Why a tag failed to parse. -/
inductive ParseFailure where
  | malformedEntry
  | invalidIntervals
  deriving DecidableEq, Repr

/-- Split a character list on a separator character. -/
def splitOnChar (c : Char) : List Char → List (List Char)
  | [] => [[]]
  | x :: xs =>
    let r := splitOnChar c xs
    if x = c then [] :: r
    else
      match r with
      | [] => [[x]]
      | y :: ys => (x :: y) :: ys

/-- A decimal digit character, as a number. -/
def digitOf (c : Char) : Option Nat :=
  if ('0' ≤ c && c ≤ '9') then some (c.toNat - 48) else Option.none

/-- `HH:MM` (with `HH ≤ 23`, `MM ≤ 59`) as minutes of the day. -/
def timeOfDigits (h1 h2 m1 m2 : Char) : Option Nat :=
  match digitOf h1, digitOf h2, digitOf m1, digitOf m2 with
  | some a, some b, some c, some d =>
    let h := 10 * a + b
    let m := 10 * c + d
    if h ≤ 23 && m ≤ 59 then some (60 * h + m) else Option.none
  | _, _, _, _ => Option.none

/-- `HH:MM-HH:MM` as a pair of minutes of the day. -/
def parseRange (cs : List Char) : Option (Nat × Nat) :=
  match cs with
  | [h1, h2, ':', m1, m2, '-', h3, h4, ':', m3, m4] =>
    match timeOfDigits h1 h2 m1 m2, timeOfDigits h3 h4 m3 m4 with
    | some a, some b => some (a, b)
    | _, _ => Option.none
  | _ => Option.none

/-- One tag entry: `on=HH:MM-HH:MM` or `off=HH:MM-HH:MM`. -/
def parseEntry (cs : List Char) : Option SchedInterval :=
  match cs with
  | 'o' :: 'n' :: '=' :: rest => (parseRange rest).map (fun p => ⟨p.1, p.2, .on⟩)
  | 'o' :: 'f' :: 'f' :: '=' :: rest => (parseRange rest).map (fun p => ⟨p.1, p.2, .off⟩)
  | _ => Option.none

/-- Split off an optional `TimeZone=...|` prefix, falling back to the
configured default zone. -/
def splitTz (dflt : String) (cs : List Char) : String × List Char :=
  match splitOnChar '|' cs with
  | [a, b] =>
    match a with
    | 'T' :: 'i' :: 'm' :: 'e' :: 'Z' :: 'o' :: 'n' :: 'e' :: '=' :: rest =>
      (String.mk rest, b)
    | _ => (dflt, cs)
  | _ => (dflt, cs)

/-- The raw intervals of a tag, before invariant validation. -/
def parsedEntries (dflt : String) (s : String) : Option (List SchedInterval) :=
  (splitOnChar ';' (splitTz dflt s.toList).2).mapM parseEntry

/-- Modelled from the spec: the Schedule Parser — parse the entries of the
tag, then enforce the `Schedule` invariant at parse time (overlapping or
inverted intervals are a `ParseFailure`, not resolved at evaluation time). -/
def parseTag (dflt : String) (s : String) : Except ParseFailure Schedule :=
  match parsedEntries dflt s with
  | Option.none => .error .malformedEntry
  | some ivs =>
    if wfIntervalsB ivs then .ok ⟨(splitTz dflt s.toList).1, ivs⟩
    else .error .invalidIntervals

/-! ### Action Planner

Modelled from the spec: `assert_resource_power_state` (source lines 46–47)
has no body; spec sections 3 and 4.4 describe the `ManagedResource` /
`DesiredAction` data model and the Action Planner embedded here. -/

/-- Current power state of a managed resource (spec section 3). -/
inductive PowerState where
  | running
  | stopped
  | transitioning
  | unknown
  deriving DecidableEq, Repr

/-- Modelled from the spec: a managed compute resource with its (already
parsed) resource-level and resource-group-level schedules. -/
structure ManagedResource where
  rid : String
  group : String
  state : PowerState
  sched : Option Schedule
  groupSched : Option Schedule
  deriving DecidableEq, Repr

/-- A planned action: resource identifier, target state, and reason. -/
structure DesiredAction where
  rid : String
  target : Target
  reason : String
  deriving DecidableEq, Repr

/-- The evaluated desired state of a resource at an instant. -/
def desiredOf (now : Nat) (r : ManagedResource) : Target :=
  evalResource r.sched r.groupSched now

/-- Modelled from the spec: the planner's per-resource policy (spec section
4.4) — a resource already in its desired state produces no action, and a
resource mid-transition yields `none` rather than a redundant call. -/
def planTarget (now : Nat) (r : ManagedResource) : Target :=
  match desiredOf now r, r.state with
  | .none, _ => .none
  | _, .transitioning => .none
  | .start, .running => .none
  | .start, _ => .start
  | .stop, .stopped => .none
  | .stop, _ => .stop

/-- The reason recorded on a planned action. -/
def reasonOf (now : Nat) (r : ManagedResource) : String :=
  match desiredOf now r with
  | .none => ("no schedule interval matched")
  | _ =>
    match r.state with
    | .transitioning => ("transition in progress")
    | _ => ("matched schedule interval")

/-- The planned action for one resource. -/
def mkAction (now : Nat) (r : ManagedResource) : DesiredAction :=
  ⟨r.rid, planTarget now r, reasonOf now r⟩

/-- Lexicographic `≤` on character lists (by code point). -/
def lexLeB : List Char → List Char → Bool
  | [], _ => true
  | _ :: _, [] => false
  | x :: xs, y :: ys =>
    if x.toNat < y.toNat then true
    else if x.toNat = y.toNat then lexLeB xs ys
    else false

/-- Planner emission order: resource group, then resource name (spec
section 4.4). -/
def leRes (a b : ManagedResource) : Bool :=
  if a.group = b.group then lexLeB a.rid.toList b.rid.toList
  else lexLeB a.group.toList b.group.toList

/-- Insert into a sorted list under `leRes`. -/
def insertSorted (x : ManagedResource) : List ManagedResource → List ManagedResource
  | [] => [x]
  | y :: ys => if leRes x y then x :: y :: ys else y :: insertSorted x ys

/-- Insertion sort of the inventory by group, then name. -/
def sortRes : List ManagedResource → List ManagedResource
  | [] => []
  | x :: xs => insertSorted x (sortRes xs)

/-- Modelled from the spec: the Action Planner — deterministic
group-then-name order, one `DesiredAction` per resource. -/
def plan (now : Nat) (inv : List ManagedResource) : List DesiredAction :=
  (sortRes inv).map (mkAction now)

/-- The state a resource reaches when a planned action succeeds. -/
def applyTarget (t : Target) (r : ManagedResource) : ManagedResource :=
  match t with
  | .start => { r with state := .running }
  | .stop => { r with state := .stopped }
  | .none => r

/-- One resource after the first run's planned action succeeds. -/
def stepResource (now : Nat) (r : ManagedResource) : ManagedResource :=
  applyTarget (planTarget now r) r

/-- The whole inventory after the first run's actions succeed. -/
def applyPlan (now : Nat) (inv : List ManagedResource) : List ManagedResource :=
  inv.map (stepResource now)

/-! ### Action Executor result ordering

Modelled from the spec: the Action Executor and its bounded-parallel mode
(spec sections 4.5 and 5) exist in the source only as trailing comments
(lines 80–82).  Worker interleaving is modelled by the completion order in
which per-action results arrive; the shared result-summary buffer is
slot-indexed by planning position. -/

/-- Terminal state of one action attempt (spec section 4.5). -/
inductive ActionResult where
  | succeeded
  | failed
  deriving DecidableEq, Repr

/-- A worker completing the action planned at index `i` writes that
action's result into slot `i` of the shared summary buffer. -/
def recordResult (results : List ActionResult) (buf : List (Option ActionResult))
    (i : Nat) : List (Option ActionResult) :=
  match results[i]? with
  | some r => buf.set i (some r)
  | Option.none => buf

/-- Modelled from the spec: the final result summary — all workers'
completions, in their completion order, folded into the slot-indexed
buffer, then read out slot by slot (i.e. in planning order). -/
def execSummary (results : List ActionResult) (completionOrder : List Nat) :
    List (Option ActionResult) :=
  completionOrder.foldl (recordResult results) (List.replicate results.length Option.none)

/-! ### Run orchestration and error propagation

Modelled from the spec: the module top level (source lines 49–65) only
authenticates and lists resource groups; the per-resource pipeline and the
error taxonomy are from spec section 7. -/

/-- Non-fatal failure kinds of the taxonomy (spec section 7); `AuthError`
is modelled separately as the failure of the authentication step. -/
inductive ResourceFailure where
  | parseFailure
  | inventoryFailure
  | transientActionFailure
  | permanentActionFailure
  deriving DecidableEq, Repr

/-- A candidate resource before processing: identifier and raw schedule
tag (absent tag means the default policy applies). -/
structure RawResource where
  rid : String
  tag : Option String
  deriving DecidableEq, Repr

/-- Modelled from the spec: per-resource processing — parse the tag (a bad
tag is a `parseFailure` localized to this resource) and evaluate the
schedule at the current instant. -/
def processResource (dflt : String) (now : Nat) (r : RawResource) :
    String × Except ResourceFailure Target :=
  match r.tag with
  | Option.none => (r.rid, .ok .none)
  | some s =>
    match parseTag dflt s with
    | .error _ => (r.rid, .error .parseFailure)
    | .ok sched => (r.rid, .ok (evalSchedule sched now))

/-- Outcome of a whole run: aborted by `AuthError` before any listing, or
completed with a per-resource report. -/
inductive RunOutcome where
  | aborted (msg : String)
  | completed (report : List (String × Except ResourceFailure Unit))

/-- Modelled from the spec: run orchestration (spec section 7) — a failed
credential acquisition (`AuthError`) aborts the run before any listing
call; otherwise one listing pass is made and every per-resource failure
(parse, inventory, transient, permanent — the latter three via the action
oracle `exec`) is captured in the final report without aborting.  The
second component counts listing calls. -/
def runbook (auth : Except String Unit) (dflt : String) (now : Nat)
    (exec : String → Target → Except ResourceFailure Unit)
    (resources : List RawResource) : RunOutcome × Nat :=
  match auth with
  | .error e => (.aborted e, 0)
  | .ok _ =>
    (.completed (resources.map (fun r =>
      match processResource dflt now r with
      | (rid, .error f) => (rid, .error f)
      | (rid, .ok tgt) => (rid, exec rid tgt))), 1)

/-! ### Concrete inputs used by the witnesses -/

/-- A well-formed one-interval power-on schedule (08:00–18:00). -/
def sched0 : Schedule :=
  ⟨("UTC"), [⟨480, 1080, .on⟩]⟩

/-- A stopped resource carrying `sched0` at resource level. -/
def res0 : ManagedResource :=
  ⟨("vm1"), ("rg1"), .stopped, some sched0, Option.none⟩

/-- A one-resource inventory. -/
def inv0 : List ManagedResource :=
  [res0]

/-- A run-as connection mapping holding the three required keys. -/
def conn0 : List (String × String) :=
  [(("ApplicationId"), ("app-1")), (("CertificateThumbprint"), ("ab12")),
   (("TenantId"), ("tenant-1"))]

/-- An environment whose token acquisition always fails. -/
def failEnv : CertEnv :=
  ⟨fun _ => ("cert"), fun _ => ("p12"), fun _ => ("key"), fun _ => ("pem"),
   fun _ _ _ _ _ => .authFailed ("invalid client certificate")⟩

/-! ## Helper lemmas -/

lemma insideB_true_iff (now : Nat) (i : SchedInterval) :
    insideB now i = true ↔ (i.start ≤ now ∧ now < i.stop) := by
  simp [insideB]

lemma all_disjoint_mem (x : SchedInterval) (xs : List SchedInterval)
    (hx : xs.all (disjointB x) = true) (i : SchedInterval) (hi : i ∈ xs) :
    x.stop ≤ i.start ∨ i.stop ≤ x.start := by
  have h := List.all_eq_true.mp hx i hi
  simpa [disjointB] using h

lemma find_strict_inside (now : Nat) (i : SchedInterval) :
    ∀ l : List SchedInterval, pairwiseDisjointB l = true → i ∈ l →
      i.start < now → now < i.stop → l.find? (insideB now) = some i := by
  intro l
  induction l with
  | nil => intro _ hmem _ _; cases hmem
  | cons x xs ih =>
    intro hd hmem h1 h2
    rw [pairwiseDisjointB] at hd
    simp only [Bool.and_eq_true] at hd
    obtain ⟨hx, hxs⟩ := hd
    rcases List.mem_cons.mp hmem with rfl | hmem'
    · exact List.find?_cons_of_pos _ ((insideB_true_iff now i).mpr ⟨Nat.le_of_lt h1, h2⟩)
    · have hfalse : insideB now x = false := by
        cases hb : insideB now x with
        | false => rfl
        | true =>
          obtain ⟨ha, hb2⟩ := (insideB_true_iff now x).mp hb
          rcases all_disjoint_mem x xs hx i hmem' with hc | hc <;> omega
      rw [List.find?_cons_of_neg _ (by simp [hfalse])]
      exact ih hxs hmem' h1 h2

lemma desiredOf_setState (now : Nat) (r : ManagedResource) (s' : PowerState) :
    desiredOf now { r with state := s' } = desiredOf now r := rfl

lemma state_setState (r : ManagedResource) (s' : PowerState) :
    ({ r with state := s' } : ManagedResource).state = s' := rfl

lemma planTarget_stepResource (now : Nat) (r : ManagedResource) :
    planTarget now (stepResource now r) = Target.none := by
  rcases hd : desiredOf now r with _ | _ | _ <;>
    rcases hs : r.state with _ | _ | _ | _ <;>
      simp [planTarget, stepResource, applyTarget, hd, hs, desiredOf_setState, state_setState]

lemma mem_insertSorted (a x : ManagedResource) (l : List ManagedResource) :
    a ∈ insertSorted x l ↔ a = x ∨ a ∈ l := by
  induction l with
  | nil => simp [insertSorted]
  | cons y ys ih =>
    rw [insertSorted]
    split
    · simp
    · simp [ih]
      tauto

lemma mem_sortRes (a : ManagedResource) (l : List ManagedResource) :
    a ∈ sortRes l ↔ a ∈ l := by
  induction l with
  | nil => simp [sortRes]
  | cons x xs ih => simp [sortRes, mem_insertSorted, ih]

lemma getq_set_self {α : Type} : ∀ (l : List α) (i : Nat) (v : α),
    i < l.length → (l.set i v)[i]? = some v := by
  intro l
  induction l with
  | nil => intro i v h; simp at h
  | cons x xs ih =>
    intro i v h
    cases i with
    | zero => simp
    | succ j =>
      simp only [List.set_cons_succ, List.getElem?_cons_succ]
      exact ih j v (by simpa using h)

lemma getq_set_other {α : Type} : ∀ (l : List α) (i j : Nat) (v : α),
    i ≠ j → (l.set i v)[j]? = l[j]? := by
  intro l
  induction l with
  | nil => intro i j v _; rfl
  | cons x xs ih =>
    intro i j v hij
    cases i with
    | zero =>
      cases j with
      | zero => exact absurd rfl hij
      | succ k => simp
    | succ i' =>
      cases j with
      | zero => simp
      | succ k =>
        simp only [List.set_cons_succ, List.getElem?_cons_succ]
        exact ih i' k v (by omega)

lemma length_recordResult (rs : List ActionResult) (buf : List (Option ActionResult)) (i : Nat) :
    (recordResult rs buf i).length = buf.length := by
  rw [recordResult]
  cases h : rs[i]? <;> simp

lemma length_foldl_record (rs : List ActionResult) :
    ∀ (order : List Nat) (buf : List (Option ActionResult)),
      (order.foldl (recordResult rs) buf).length = buf.length := by
  intro order
  induction order with
  | nil => intro buf; rfl
  | cons i rest ih =>
    intro buf
    rw [List.foldl_cons, ih, length_recordResult]

lemma foldl_record_untouched (rs : List ActionResult) :
    ∀ (order : List Nat) (buf : List (Option ActionResult)) (j : Nat),
      j ∉ order → (order.foldl (recordResult rs) buf)[j]? = buf[j]? := by
  intro order
  induction order with
  | nil => intro buf j _; rfl
  | cons i rest ih =>
    intro buf j hj
    have hji : i ≠ j := fun h => hj (h ▸ List.mem_cons_self i rest)
    have hjr : j ∉ rest := fun h => hj (List.mem_cons_of_mem i h)
    rw [List.foldl_cons, ih _ j hjr, recordResult]
    cases h : rs[i]? with
    | none => rfl
    | some v => exact getq_set_other buf i j (some v) hji

lemma foldl_record_hit (rs : List ActionResult) :
    ∀ (order : List Nat) (buf : List (Option ActionResult)) (j : Nat),
      buf.length = rs.length → j ∈ order → ∀ hj : j < rs.length,
      (order.foldl (recordResult rs) buf)[j]? = some (some rs[j]) := by
  intro order
  induction order with
  | nil => intro buf j _ hmem hj; cases hmem
  | cons i rest ih =>
    intro buf j hlen hmem hj
    rw [List.foldl_cons]
    by_cases hjr : j ∈ rest
    · exact ih (recordResult rs buf i) j (by rw [length_recordResult, hlen]) hjr hj
    · have hji : j = i := by
        rcases List.mem_cons.mp hmem with h | h
        · exact h
        · exact absurd h hjr
      subst hji
      rw [foldl_record_untouched rs rest _ j hjr, recordResult,
        List.getElem?_eq_getElem hj]
      exact getq_set_self buf j (some rs[j]) (hlen ▸ hj)

/-! ## Claim theorems -/

/-- Claim C1 (counterexample): the credential-acquisition statement and the
resource-group-listing statement are present at the module top level, yet
neither executes on any run, because the module does not load. -/
theorem credential_and_listing_do_not_execute :
    azureCredentialStmt ∈ pyModule ∧ groupsListingStmt ∈ pyModule ∧
    azureCredentialStmt ∉ executedTopLevel pyModule ∧
    groupsListingStmt ∉ executedTopLevel pyModule := by
  decide

/-- Claim C1 (amended): the credential acquisition and the listing are the
only effectful functionality present, every schedule-related function is a
bodiless stub, and — because the bodiless stubs are a syntax error — no
run executes anything, so in particular no schedule evaluation or power
action is ever performed. -/
theorem only_stub_functionality_and_nothing_executes :
    emptyDefNames pyModule =
      [("get_current_date"), ("test_schedule_entry"), ("assert_resource_power_state")] ∧
    azureCredentialStmt ∈ pyModule ∧ groupsListingStmt ∈ pyModule ∧
    executedTopLevel pyModule = [] := by
  refine ⟨by decide, by decide, by decide, rfl⟩

/-- Claim C2: the three schedule-related `def` statements have empty suites
(their concrete suites hold only comments), which is a syntax error, so the
module never loads and no statement of it — the credential acquisition and
listing included — ever executes. -/
theorem empty_def_suites_prevent_load :
    emptyDefNames pyModule =
      [("get_current_date"), ("test_schedule_entry"), ("assert_resource_power_state")] ∧
    moduleLoads pyModule = false ∧
    executedTopLevel pyModule = [] := by
  refine ⟨by decide, by decide, rfl⟩

/-- Claim C3: a failed credential acquisition (`AuthError`) aborts the run
before any listing call; when authentication succeeds the run always
completes with a report carrying one entry per resource, whatever
per-resource failures (parse, inventory, transient, permanent) occur. -/
theorem only_auth_failure_aborts :
    (∀ (e dflt : String) (now : Nat) (exec : String → Target → Except ResourceFailure Unit)
       (rs : List RawResource), runbook (.error e) dflt now exec rs = (.aborted e, 0)) ∧
    (∀ (dflt : String) (now : Nat) (exec : String → Target → Except ResourceFailure Unit)
       (rs : List RawResource), ∃ rep,
         runbook (.ok ()) dflt now exec rs = (.completed rep, 1) ∧ rep.length = rs.length) := by
  constructor
  · intro e dflt now exec rs; rfl
  · intro dflt now exec rs
    refine ⟨_, rfl, ?_⟩
    simp [List.length_map]

/-- Claim C4: for a schedule satisfying the data-model invariant, the
evaluator returns `start` at every instant strictly inside a power-on
interval, `stop` strictly inside a power-off interval, and `none` at every
instant strictly outside all intervals. -/
theorem evaluator_strict_membership (s : Schedule) (now : Nat)
    (hwf : wfScheduleB s = true) :
    (∀ i, i ∈ s.intervals → i.start < now → now < i.stop →
       evalSchedule s now = targetOfKind i.kind) ∧
    ((∀ i, i ∈ s.intervals → now < i.start ∨ i.stop < now) →
       evalSchedule s now = Target.none) := by
  rw [wfScheduleB, wfIntervalsB] at hwf
  simp only [Bool.and_eq_true] at hwf
  obtain ⟨-, hdisj⟩ := hwf
  constructor
  · intro i hi h1 h2
    rw [evalSchedule, find_strict_inside now i s.intervals hdisj hi h1 h2]
  · intro houtside
    have hnone : s.intervals.find? (insideB now) = Option.none := by
      rw [List.find?_eq_none]
      intro x hx
      have hox := houtside x hx
      simp [insideB]
      omega
    rw [evalSchedule, hnone]

/-- Witness for C4: the instant 09:00 lies strictly inside the 08:00–18:00
power-on interval of `sched0`, and the evaluator answers `start`. -/
theorem evaluator_strict_membership_witness :
    wfScheduleB sched0 = true ∧ evalSchedule sched0 540 = Target.start :=
  ⟨by decide,
   (evaluator_strict_membership sched0 540 (by decide)).1
     ⟨480, 1080, .on⟩ (by decide) (by decide) (by decide)⟩

/-- Claim C5: a resource-level schedule determines the evaluated desired
state entirely — the result is the plain evaluation of the resource-level
schedule and is unchanged under any replacement of the group-level one. -/
theorem resource_schedule_overrides (r : Schedule) (g1 g2 : Option Schedule) (now : Nat) :
    evalResource (some r) g1 now = evalResource (some r) g2 now ∧
    evalResource (some r) g1 now = evalSchedule r now :=
  ⟨rfl, rfl⟩

/-- Claim C6: every schedule produced by the parser satisfies the
invariant (`start < stop` per interval, pairwise-disjoint intervals), and
a tag whose entries parse but whose intervals violate the invariant is
rejected with a parse-time error. -/
theorem parser_enforces_invariant :
    (∀ (dflt s : String) (sched : Schedule),
       parseTag dflt s = .ok sched → wfScheduleB sched = true) ∧
    (∀ (dflt s : String) (ivs : List SchedInterval),
       parsedEntries dflt s = some ivs → wfIntervalsB ivs = false →
       parseTag dflt s = .error .invalidIntervals) := by
  constructor
  · intro dflt s sched h
    rw [parseTag] at h
    split at h
    · exact absurd h (by simp)
    · split at h
      · rename_i hwf
        cases h
        exact hwf
      · exact absurd h (by simp)
  · intro dflt s ivs hp hw
    rw [parseTag, hp]
    simp [hw]

/-- Witness for C6: the tag `on=08:00-18:00` parses to `sched0`, which the
theorem shows to satisfy the invariant. -/
theorem parser_enforces_invariant_witness :
    parseTag ("UTC") ("on=08:00-18:00") = .ok sched0 ∧ wfScheduleB sched0 = true :=
  ⟨by rfl, parser_enforces_invariant.1 ("UTC") ("on=08:00-18:00") sched0 (by rfl)⟩

/-- Claim C7: the planner is deterministic on an unchanged inventory and
clock, and once the first run's actions have succeeded, every action the
second run plans is a `none` action. -/
theorem planner_idempotent (now : Nat) (inv : List ManagedResource) :
    plan now inv = plan now inv ∧
    ∀ a, a ∈ plan now (applyPlan now inv) → a.target = Target.none := by
  refine ⟨rfl, ?_⟩
  intro a ha
  rw [plan] at ha
  obtain ⟨r, hr, rfl⟩ := List.mem_map.mp ha
  obtain ⟨r0, _, rfl⟩ := List.mem_map.mp ((mem_sortRes r _).mp hr)
  exact planTarget_stepResource now r0

/-- Witness for C7: for the one-resource inventory `inv0` at 09:00, the
second run's planned action (after the first run's `start` succeeded) is a
`none` action. -/
theorem planner_idempotent_witness :
    (⟨("vm1"), Target.none, ("matched schedule interval")⟩ : DesiredAction).target =
      Target.none :=
  (planner_idempotent 540 inv0).2
    ⟨("vm1"), Target.none, ("matched schedule interval")⟩ (by decide)

/-- Claim C8: whatever completion order the bounded-parallel workers
produce — as long as every planned action completes — the final summary
equals the planned results in planning order. -/
theorem exec_summary_planning_order (results : List ActionResult) (order : List Nat)
    (hall : ∀ i, i < results.length → i ∈ order) :
    execSummary results order = results.map some := by
  apply List.ext_getElem?
  intro j
  by_cases hj : j < results.length
  · rw [execSummary,
      foldl_record_hit results order _ j (by simp) (hall j hj) hj,
      List.getElem?_map, List.getElem?_eq_getElem hj]
    rfl
  · have h1 : (execSummary results order).length = results.length := by
      rw [execSummary, length_foldl_record]
      simp
    rw [List.getElem?_eq_none (by omega),
      List.getElem?_eq_none (by simp; omega)]

/-- Witness for C8: two planned actions completing in reversed order still
yield the summary in planning order. -/
theorem exec_summary_planning_order_witness :
    execSummary [ActionResult.succeeded, ActionResult.failed] [1, 0] =
      [some ActionResult.succeeded, some ActionResult.failed] :=
  exec_summary_planning_order [ActionResult.succeeded, ActionResult.failed] [1, 0]
    (by decide)

/-- Claim C9: all effectful work of the module sits unguarded at top level
(there is no `if` at top level, in particular no entry-point guard), and
the three schedule-related functions are called nowhere in the module. -/
theorem effectful_top_level_unguarded :
    hasTopLevelIf pyModule = false ∧
    runasConnectionStmt ∈ pyModule ∧ azureCredentialStmt ∈ pyModule ∧
    resourceClientStmt ∈ pyModule ∧ groupsListingStmt ∈ pyModule ∧
    printGroupsStmt ∈ pyModule ∧
    ("get_current_date") ∉ moduleCallees pyModule ∧
    ("test_schedule_entry") ∉ moduleCallees pyModule ∧
    ("assert_resource_power_state") ∉ moduleCallees pyModule := by
  decide

/-- Claim C10: for every connection mapping holding the three keys,
`get_automation_runas_credential` returns — whatever the token-acquisition
behaviour of the environment — an `AdalAuthentication` whose stored thunk
is exactly the deferred `acquire_token_with_client_certificate` call, so
acquisition failures can only surface when the credential is used. -/
theorem credential_defers_token_acquisition (env : CertEnv)
    (conn : List (String × String)) (resource_url authority_url app thumb tid : String)
    (h1 : lookupKey conn ("ApplicationId") = some app)
    (h2 : lookupKey conn ("CertificateThumbprint") = some thumb)
    (h3 : lookupKey conn ("TenantId") = some tid) :
    get_automation_runas_credential env conn resource_url authority_url =
      some ⟨fun _ => env.acquire_token_with_client_certificate
        (authority_url ++ ("/") ++ tid) resource_url app (pemOf env) thumb⟩ := by
  rw [get_automation_runas_credential, h1, h2, h3]
  rfl

/-- Witness for C10: with an environment whose acquisition always fails,
the function still returns the credential, and the stored thunk is the
deferred failing acquisition. -/
theorem credential_defers_token_acquisition_witness :
    get_automation_runas_credential failEnv conn0 ("res") ("auth") =
      some ⟨fun _ => failEnv.acquire_token_with_client_certificate
        (("auth") ++ ("/") ++ ("tenant-1")) ("res") ("app-1") (pemOf failEnv) ("ab12")⟩ :=
  credential_defers_token_acquisition failEnv conn0 ("res") ("auth")
    ("app-1") ("ab12") ("tenant-1") (by rfl) (by rfl) (by rfl)

end AAS
